import Mathlib

/-!
Verification of the attribute-value model and the unit placeholder view of
`leptos_dom` (files `src/leptos_dom/src/attribute.rs` and
`src/leptos_dom/src/components/unit.rs`).

The Rust enum `Attribute` stores, in its `Fn` variant, a shared zero-argument
closure returning a fresh `Attribute`.  We embed it as a reflexive inductive
type: a thunk is a function `Unit → Attribute`.  Values of this inductive type
are exactly the attributes whose `Fn` chains reach a non-`Fn` variant after
finitely many invocations, which is the domain on which the source's
resolution loop terminates.
-/

/-- The reactive scope token (`leptos_reactive::Scope`).  It is opaque to this
component and only threaded through conversions; we model it as a plain
record carrying an identifier. -/
structure Scope where
  id : Nat

/-- Embedding of the Rust enum `Attribute` from `attribute.rs`:
`String(String)`, `Fn(Rc<dyn Fn() -> Attribute>)`, `Option(Option<String>)`,
`Bool(bool)`. -/
inductive Attribute : Type where
  | String : String → Attribute
  | Fn : (Unit → Attribute) → Attribute
  | Option : Option String → Attribute
  | Bool : Bool → Attribute

/-- `Attribute::as_value_string(&self, attr_name)`.  The source's `Fn` branch
first runs `let mut value = f();` and then a `while let Attribute::Fn(f) =
value { value = f(); }` loop before formatting the terminal value; invoking
the thunk and recursing into `as_value_string` performs exactly that loop,
one iteration per recursive call. -/
def as_value_string : Attribute → String → String
  | Attribute.String value, attr_name => attr_name ++ "=\"" ++ value ++ "\""
  | Attribute.Fn f, attr_name => as_value_string (f ()) attr_name
  | Attribute.Option value, attr_name =>
      (value.map fun value => attr_name ++ "=\"" ++ value ++ "\"").getD ""
  | Attribute.Bool incl, attr_name => if incl then attr_name else ""

/-- The custom `impl PartialEq for Attribute`: structural comparison on
`String`, `Option` and `Bool` payloads, `false` for any pair of `Fn` values,
`false` across different variants. -/
def attribute_eq : Attribute → Attribute → Bool
  | Attribute.String l0, Attribute.String r0 => l0 == r0
  | Attribute.Fn _, Attribute.Fn _ => false
  | Attribute.Option l0, Attribute.Option r0 => l0 == r0
  | Attribute.Bool l0, Attribute.Bool r0 => l0 == r0
  | _, _ => false

/-- Discriminator for the `Fn` variant (used to state that a resolution chain
has reached a ground variant). -/
def isFn : Attribute → Bool
  | Attribute.Fn _ => true
  | _ => false

/-- The conversion trait `IntoAttribute`: `fn into_attribute(self, cx: Scope)
-> Attribute`. -/
class IntoAttribute (α : Type) where
  into_attribute : α → Scope → Attribute

/-- `impl IntoAttribute for String`. -/
instance instIntoAttributeString : IntoAttribute String where
  into_attribute self _cx := Attribute.String self

/-- `impl IntoAttribute for bool`. -/
instance instIntoAttributeBool : IntoAttribute Bool where
  into_attribute self _cx := Attribute.Bool self

/-- `impl IntoAttribute for Option<String>`. -/
instance instIntoAttributeOptionString : IntoAttribute (Option String) where
  into_attribute self _cx := Attribute.Option self

/-- The blanket `impl<T, U> IntoAttribute for T where T: Fn() -> U, U:
IntoAttribute`: the stored thunk calls the callable, then converts the result
with `U`'s own `into_attribute` at the same scope. -/
instance instIntoAttributeThunk {U : Type} [IntoAttribute U] :
    IntoAttribute (Unit → U) where
  into_attribute self cx := Attribute.Fn fun _ => IntoAttribute.into_attribute (self ()) cx

/-- Rust `u32` values: naturals below `2 ^ 32` (no arithmetic is performed on
them here, only rendering). -/
structure u32 where
  val : Nat
  isLt : val < 2 ^ 32

/-- `u32::to_string()`: canonical decimal rendering. -/
def u32.to_string (self : u32) : String := toString self.val

/-- Rust `i32` values: integers in `[-2^31, 2^31)`. -/
structure i32 where
  val : Int
  isLe : -(2 ^ 31) ≤ val
  isLt : val < 2 ^ 31

/-- `i32::to_string()`: canonical decimal rendering with a leading minus sign
for negative values. -/
def i32.to_string (self : i32) : String := toString self.val

/-- `char::to_string()`: the one-character string. -/
def char_to_string (self : Char) : String := String.singleton self

/-- `attr_type!(u32)`, first generated impl: `Attribute::String(self.to_string())`. -/
instance instIntoAttributeU32 : IntoAttribute u32 where
  into_attribute self _cx := Attribute.String self.to_string

/-- `attr_type!(u32)`, second generated impl:
`Attribute::Option(self.map(|n| n.to_string()))`. -/
instance instIntoAttributeOptionU32 : IntoAttribute (Option u32) where
  into_attribute self _cx := Attribute.Option (self.map fun n => n.to_string)

/-- `attr_type!(i32)`, first generated impl. -/
instance instIntoAttributeI32 : IntoAttribute i32 where
  into_attribute self _cx := Attribute.String self.to_string

/-- `attr_type!(i32)`, second generated impl. -/
instance instIntoAttributeOptionI32 : IntoAttribute (Option i32) where
  into_attribute self _cx := Attribute.Option (self.map fun n => n.to_string)

/-- `attr_type!(char)`, first generated impl. -/
instance instIntoAttributeChar : IntoAttribute Char where
  into_attribute self _cx := Attribute.String (char_to_string self)

/-- `attr_type!(char)`, second generated impl. -/
instance instIntoAttributeOptionChar : IntoAttribute (Option Char) where
  into_attribute self _cx := Attribute.Option (self.map fun n => char_to_string n)

namespace components

/-- Modelled from the spec: the native DOM node handle backing a marker node
(`web_sys::Node`); opaque to this core, carried around by value. -/
structure Node where
  id : Nat

/-- Modelled from the spec: the `Comment` marker payload of `leptos_dom`
(not under `src/`): a comment-like marker with its text and the concrete DOM
handle for an empty marker node. -/
structure Comment where
  content : String
  node : Node

/-- Modelled from the spec: `Comment::new(content)` builds the marker for the
given text, backed by an empty marker node. -/
def Comment.new (content : String) : Comment :=
  { content := content, node := { id := 0 } }

/-- The internal representation of the `Unit` core-component
(`struct UnitRepr { comment: Comment }`). -/
structure UnitRepr where
  comment : Comment

/-- `impl Default for UnitRepr`: wraps `Comment::new("<() />")`. -/
def UnitRepr.default : UnitRepr :=
  { comment := Comment.new "<() />" }

/-- `Mountable::get_mountable_node` for `UnitRepr`: the comment's node. -/
def UnitRepr.get_mountable_node (self : UnitRepr) : Node :=
  self.comment.node

/-- `Mountable::get_opening_node` for `UnitRepr`: the comment's node. -/
def UnitRepr.get_opening_node (self : UnitRepr) : Node :=
  self.comment.node

/-- Modelled from the spec: the `CoreComponent` union of `leptos_dom` (not
under `src/`); only the unit variant is in scope. -/
inductive CoreComponent : Type where
  | Unit : UnitRepr → CoreComponent

/-- Modelled from the spec: the generic `View` union of `leptos_dom` (not
under `src/`); only the core-component arm is in scope. -/
inductive View : Type where
  | CoreComponent : CoreComponent → View

/-- Modelled from the spec: the `IntoView` conversion capability
(`fn into_view(self, cx: Scope) -> View`). -/
class IntoView (α : Type) where
  into_view : α → Scope → View

/-- The unit `()` leptos counterpart (`struct Unit;`). -/
structure Unit where

/-- `impl IntoView for Unit`: ignores the scope and wraps a
default-constructed `UnitRepr`. -/
instance instIntoViewUnit : IntoView Unit where
  into_view _self _cx :=
    let component := UnitRepr.default
    View.CoreComponent (CoreComponent.Unit component)

end components

/-- `FnYields f v`: the thunk `f`, possibly through finitely many further
`Fn` results, eventually yields the non-`Fn` variant `v`.  This is the
"finite chain" notion of the specification's nesting law. -/
inductive FnYields : (Unit → Attribute) → Attribute → Prop where
  | ground (f : Unit → Attribute) (v : Attribute) :
      f () = v → isFn v = false → FnYields f v
  | step (f g : Unit → Attribute) (v : Attribute) :
      f () = Attribute.Fn g → FnYields g v → FnYields f v

/-- Step-counted form of `as_value_string`: the source's
`while let Attribute::Fn(f) = value` loop is run for at most `fuel`
iterations, answering `none` when the budget is exhausted before a ground
variant appears.  Used to state that the loop in fact halts on every
attribute after finitely many thunk invocations. -/
def as_value_string_fuel : Attribute → String → Nat → Option String
  | Attribute.Fn _, _, 0 => none
  | Attribute.Fn f, attr_name, fuel + 1 => as_value_string_fuel (f ()) attr_name fuel
  | a, attr_name, _ => some (as_value_string a attr_name)

/-- State-passing form of `as_value_string`: the source method takes `&self`,
so we return the produced string together with the attribute as it stands
after the call, rebuilt field by field from what the branch read, making any
mutation observable in the second component. -/
def as_value_string_st : Attribute → String → String × Attribute
  | Attribute.String value, attr_name =>
      (attr_name ++ "=\"" ++ value ++ "\"", Attribute.String value)
  | Attribute.Fn f, attr_name =>
      (as_value_string (f ()) attr_name, Attribute.Fn f)
  | Attribute.Option value, attr_name =>
      ((value.map fun value => attr_name ++ "=\"" ++ value ++ "\"").getD "",
        Attribute.Option value)
  | Attribute.Bool incl, attr_name =>
      (if incl then attr_name else "", Attribute.Bool incl)

/-- Symmetry of lawful boolean equality, used for the payload comparisons of
`attribute_eq`. -/
theorem beq_symm_lawful {α : Type} [BEq α] [LawfulBEq α] (a b : α) : (a == b) = (b == a) := by
  by_cases h : a = b
  · subst h; rfl
  · rw [beq_eq_false_iff_ne.mpr h, beq_eq_false_iff_ne.mpr (Ne.symm h)]

/-- Claim C1: for every finite chain of `Fn` attributes whose thunk, possibly
through further `Fn` results, eventually yields a non-`Fn` variant `v`,
`as_value_string` on the chain returns exactly the string of `v` alone. -/
theorem fn_chain_collapses_to_terminal
    (f : Unit → Attribute) (v : Attribute) (attr_name : String)
    (h : FnYields f v) :
    as_value_string (Attribute.Fn f) attr_name = as_value_string v attr_name := by
  induction h with
  | ground g w hg _hw =>
      rw [show as_value_string (Attribute.Fn g) attr_name
            = as_value_string (g ()) attr_name from rfl, hg]
  | step g g2 w hg _hy ih =>
      rw [show as_value_string (Attribute.Fn g) attr_name
            = as_value_string (g ()) attr_name from rfl, hg]
      exact ih

/-- Witness for C1: a depth-two chain ending in `String "x"`, rendered under
the attribute name `class`, collapses to the terminal variant's string. -/
theorem fn_chain_collapses_to_terminal_witness :
    FnYields (fun _ => Attribute.Fn fun _ => Attribute.String "x") (Attribute.String "x") ∧
      as_value_string (Attribute.Fn fun _ => Attribute.Fn fun _ => Attribute.String "x") "class"
        = as_value_string (Attribute.String "x") "class" := by
  have h : FnYields (fun _ => Attribute.Fn fun _ => Attribute.String "x")
      (Attribute.String "x") :=
    FnYields.step _ (fun _ => Attribute.String "x") _ rfl (FnYields.ground _ _ rfl rfl)
  exact ⟨h, fn_chain_collapses_to_terminal _ _ "class" h⟩

/-- Claim C2: ground formatting — `String s` renders as `name="s"`,
`Option (some v)` as `name="v"`, `Option none` as the empty string,
`Bool true` as the bare name, `Bool false` as the empty string. -/
theorem as_value_string_ground_format (attr_name s v : String) :
    as_value_string (Attribute.String s) attr_name = attr_name ++ "=\"" ++ s ++ "\""
  ∧ as_value_string (Attribute.Option (some v)) attr_name = attr_name ++ "=\"" ++ v ++ "\""
  ∧ as_value_string (Attribute.Option none) attr_name = ""
  ∧ as_value_string (Attribute.Bool true) attr_name = attr_name
  ∧ as_value_string (Attribute.Bool false) attr_name = "" :=
  ⟨rfl, rfl, rfl, rfl, rfl⟩

/-- Claim C3: `attribute_eq` is false on every pair of `Fn` values (a value
compared with itself included), compares `String`, `Option` and `Bool`
payloads by structural value equality, and is false across different
variants. -/
theorem attribute_eq_spec :
    (∀ f g : Unit → Attribute, attribute_eq (Attribute.Fn f) (Attribute.Fn g) = false)
  ∧ (∀ f : Unit → Attribute, attribute_eq (Attribute.Fn f) (Attribute.Fn f) = false)
  ∧ (∀ s t : String,
      (attribute_eq (Attribute.String s) (Attribute.String t) = true ↔ s = t))
  ∧ (∀ o p : Option String,
      (attribute_eq (Attribute.Option o) (Attribute.Option p) = true ↔ o = p))
  ∧ (∀ b c : Bool, (attribute_eq (Attribute.Bool b) (Attribute.Bool c) = true ↔ b = c))
  ∧ (∀ (s : String) (f : Unit → Attribute),
      attribute_eq (Attribute.String s) (Attribute.Fn f) = false
    ∧ attribute_eq (Attribute.Fn f) (Attribute.String s) = false)
  ∧ (∀ (s : String) (o : Option String),
      attribute_eq (Attribute.String s) (Attribute.Option o) = false
    ∧ attribute_eq (Attribute.Option o) (Attribute.String s) = false)
  ∧ (∀ (s : String) (b : Bool),
      attribute_eq (Attribute.String s) (Attribute.Bool b) = false
    ∧ attribute_eq (Attribute.Bool b) (Attribute.String s) = false)
  ∧ (∀ (f : Unit → Attribute) (o : Option String),
      attribute_eq (Attribute.Fn f) (Attribute.Option o) = false
    ∧ attribute_eq (Attribute.Option o) (Attribute.Fn f) = false)
  ∧ (∀ (f : Unit → Attribute) (b : Bool),
      attribute_eq (Attribute.Fn f) (Attribute.Bool b) = false
    ∧ attribute_eq (Attribute.Bool b) (Attribute.Fn f) = false)
  ∧ (∀ (o : Option String) (b : Bool),
      attribute_eq (Attribute.Option o) (Attribute.Bool b) = false
    ∧ attribute_eq (Attribute.Bool b) (Attribute.Option o) = false) := by
  refine ⟨fun f g => rfl, fun f => rfl, fun s t => ?_, fun o p => ?_, fun b c => ?_,
    fun s f => ⟨rfl, rfl⟩, fun s o => ⟨rfl, rfl⟩, fun s b => ⟨rfl, rfl⟩,
    fun f o => ⟨rfl, rfl⟩, fun f b => ⟨rfl, rfl⟩, fun o b => ⟨rfl, rfl⟩⟩
  · simp [attribute_eq]
  · simp [attribute_eq]
  · simp [attribute_eq]

/-- Claim C10: `attribute_eq` is symmetric, although not reflexive — an `Fn`
value is unequal to itself. -/
theorem attribute_eq_symm_not_refl :
    (∀ a b : Attribute, attribute_eq a b = attribute_eq b a)
  ∧ (∀ f : Unit → Attribute, attribute_eq (Attribute.Fn f) (Attribute.Fn f) = false) := by
  refine ⟨fun a b => ?_, fun f => rfl⟩
  cases a <;> cases b <;> first
    | rfl
    | exact beq_symm_lawful _ _

/-- Claim C4: the blanket conversion wraps a zero-argument callable as an
`Fn` whose stored thunk calls the callable and converts the result through
the return type's own `into_attribute` at the same scope; a callable
returning another callable produces a nested `Fn (Fn ...)` chain. -/
theorem fn_into_attribute_wraps_thunk :
    ∀ (U : Type) [IntoAttribute U] (f : Unit → U) (cx : Scope),
      (IntoAttribute.into_attribute f cx
          = Attribute.Fn fun _ => IntoAttribute.into_attribute (f ()) cx)
    ∧ ∀ (V : Type) [IntoAttribute V] (g : Unit → Unit → V),
        IntoAttribute.into_attribute g cx
          = Attribute.Fn fun _ =>
              Attribute.Fn fun _ => IntoAttribute.into_attribute (g () ()) cx := by
  intro U instU f cx
  exact ⟨rfl, fun V instV g => rfl⟩

/-- Claim C5: `as_value_string` is total — on every attribute of the model
(whose `Fn` chain by construction reaches a ground variant after finitely
many invocations) the source's resolution loop halts within some finite
iteration budget and produces exactly the returned string; all four variants
are handled and no failure branch exists. -/
theorem as_value_string_total_terminates :
    ∀ (a : Attribute) (attr_name : String),
      ∃ fuel : Nat,
        as_value_string_fuel a attr_name fuel = some (as_value_string a attr_name) := by
  intro a
  induction a with
  | String s => intro attr_name; exact ⟨0, rfl⟩
  | Fn f ih =>
      intro attr_name
      obtain ⟨fuel, h⟩ := ih () attr_name
      exact ⟨fuel + 1, by simpa [as_value_string_fuel, as_value_string] using h⟩
  | Option o => intro attr_name; exact ⟨0, rfl⟩
  | Bool b => intro attr_name; exact ⟨0, rfl⟩

/-- Claim C6: the macro-generated numeric and character conversions produce
`String` of the value's canonical textual rendering (decimal for integers,
`42` rendering as `"42"`), and on the optional forms produce `Option` of the
rendered text, with `none` resolving to the empty string. -/
theorem numeric_into_attribute_spec :
    ∀ cx : Scope,
      (∀ n : u32, IntoAttribute.into_attribute n cx = Attribute.String (toString n.val))
    ∧ (∀ n : u32, u32.to_string n = Nat.repr n.val)
    ∧ (IntoAttribute.into_attribute (⟨42, by norm_num⟩ : u32) cx = Attribute.String "42")
    ∧ (∀ n : i32, IntoAttribute.into_attribute n cx = Attribute.String (toString n.val))
    ∧ (IntoAttribute.into_attribute (⟨42, by norm_num, by norm_num⟩ : i32) cx
        = Attribute.String "42")
    ∧ (∀ o : Option u32,
        IntoAttribute.into_attribute o cx = Attribute.Option (o.map fun n => toString n.val))
    ∧ (∀ o : Option i32,
        IntoAttribute.into_attribute o cx = Attribute.Option (o.map fun n => toString n.val))
    ∧ (IntoAttribute.into_attribute (none : Option i32) cx = Attribute.Option none)
    ∧ (∀ attr_name : String, as_value_string (Attribute.Option none) attr_name = "")
    ∧ (∀ c : Char, IntoAttribute.into_attribute c cx = Attribute.String (String.singleton c))
    ∧ (∀ o : Option Char,
        IntoAttribute.into_attribute o cx = Attribute.Option (o.map String.singleton)) := by
  intro cx
  refine ⟨fun n => rfl, fun n => rfl, rfl, fun n => rfl, rfl, fun o => rfl, fun o => rfl,
    rfl, fun attr_name => rfl, fun c => rfl, fun o => rfl⟩

/-- Claim C7: `as_value_string` performs no escaping — a value containing a
double-quote character is embedded verbatim inside the `name="..."` form. -/
theorem as_value_string_no_escaping (attr_name s : String) (_h : '"' ∈ s.data) :
    as_value_string (Attribute.String s) attr_name = attr_name ++ "=\"" ++ s ++ "\"" :=
  rfl

/-- Witness for C7: `String "a\"b"` under the name `n` renders as
`n="a"b"` with the inner quote unescaped. -/
theorem as_value_string_no_escaping_witness :
    '"' ∈ ("a\"b" : String).data ∧
      as_value_string (Attribute.String "a\"b") "n" = "n" ++ "=\"" ++ "a\"b" ++ "\"" :=
  ⟨by decide, as_value_string_no_escaping "n" "a\"b" (by decide)⟩

/-- Claim C8: resolution does not mutate its input — the state-passing form
returns the attribute unchanged, its string agrees with `as_value_string`,
and resolving again after a resolution yields the identical text. -/
theorem as_value_string_no_mutation_idempotent :
    ∀ (a : Attribute) (attr_name : String),
      (as_value_string_st a attr_name).2 = a
    ∧ (as_value_string_st a attr_name).1 = as_value_string a attr_name
    ∧ (as_value_string_st (as_value_string_st a attr_name).2 attr_name).1
        = (as_value_string_st a attr_name).1 := by
  intro a attr_name
  refine ⟨?_, ?_, ?_⟩ <;> cases a <;> rfl

/-- Claim C9: `Unit.into_view` always succeeds, ignores the scope, and
returns the view wrapping a default-constructed `UnitRepr`; on every
`UnitRepr` the two node accessors agree. -/
theorem unit_into_view_spec :
    ∀ (u : components.Unit) (cx cx2 : Scope),
      (components.IntoView.into_view u cx
          = components.View.CoreComponent
              (components.CoreComponent.Unit components.UnitRepr.default))
    ∧ components.IntoView.into_view u cx = components.IntoView.into_view u cx2
    ∧ components.UnitRepr.get_mountable_node components.UnitRepr.default
        = components.UnitRepr.get_opening_node components.UnitRepr.default
    ∧ ∀ r : components.UnitRepr,
        components.UnitRepr.get_mountable_node r = components.UnitRepr.get_opening_node r := by
  intro u cx cx2
  exact ⟨rfl, rfl, rfl, fun r => rfl⟩
